import Mathlib

/-!
Verification of `ecommerce_integrations`:
`controllers/inventory.py` and `unicommerce/delivery_note.py`.

Shallow embedding: database tables are lists of records, timestamps are
naturals, quantities are integers, and the Frappe/SQL query builder calls
are translated to list operations.  Fallible operations (the Unicommerce
HTTP client, document submission) are modelled by `Except`-valued
functions supplied through an environment record.
-/

namespace EI

/-- A row of the ERPNext `Bin` table: per-item, per-warehouse stock levels.
`modified` is the row's last-modification timestamp. -/
structure Bin where
  item_code : String
  warehouse : String
  actual_qty : Int
  reserved_qty : Int
  modified : Nat
deriving DecidableEq, Repr

/-- A row of the `Ecommerce Item` table, linking an ERPNext item to an
integration.  `inventory_synced_on` is the time inventory was last pushed. -/
structure EcommerceItem where
  name : String
  erpnext_item_code : String
  integration_item_code : String
  variant_id : String
  integration : String
  inventory_synced_on : Nat
deriving DecidableEq, Repr

/-- The SQL inner join `FROM EcommerceItem JOIN Bin ON
EcommerceItem.erpnext_item_code = Bin.item_code`, as the list of matching
pairs. -/
def joinPairs (ecomItems : List EcommerceItem) (bins : List Bin) :
    List (EcommerceItem × Bin) :=
  ecomItems.flatMap fun e =>
    (bins.filter fun b => e.erpnext_item_code == b.item_code).map fun b => (e, b)

/-- A result row of `get_inventory_levels` (the columns selected by the
query in `controllers/inventory.py`). -/
structure InventoryRow where
  ecom_item : String
  item_code : String
  integration_item_code : String
  variant_id : String
  actual_qty : Int
  warehouse : String
  reserved_qty : Int
deriving DecidableEq, Repr

/-- `get_inventory_levels` from `controllers/inventory.py`: joins
`Ecommerce Item` with `Bin` on item code and keeps the rows whose warehouse
is among `warehouses`, whose bin was modified strictly after the item was
last synced, and whose item belongs to `integration`. -/
def get_inventory_levels (warehouses : List String) (integration : String)
    (ecomItems : List EcommerceItem) (bins : List Bin) : List InventoryRow :=
  (joinPairs ecomItems bins).filterMap fun p =>
    if warehouses.contains p.2.warehouse
        && decide (p.1.inventory_synced_on < p.2.modified)
        && p.1.integration == integration then
      some ⟨p.1.name, p.2.item_code, p.1.integration_item_code, p.1.variant_id,
            p.2.actual_qty, p.2.warehouse, p.2.reserved_qty⟩
    else
      none

/-- C3: `get_inventory_levels` returns exactly the joined (Ecommerce Item,
Bin) rows with matching item code, warehouse in the given tuple, bin
modified strictly after the item's `inventory_synced_on`, and matching
integration; each row carries that bin's quantities and warehouse. -/
theorem get_inventory_levels_mem_iff (warehouses : List String)
    (integration : String) (ecomItems : List EcommerceItem) (bins : List Bin)
    (r : InventoryRow) :
    r ∈ get_inventory_levels warehouses integration ecomItems bins ↔
      ∃ e ∈ ecomItems, ∃ b ∈ bins,
        e.erpnext_item_code = b.item_code ∧
        b.warehouse ∈ warehouses ∧
        e.inventory_synced_on < b.modified ∧
        e.integration = integration ∧
        r = ⟨e.name, b.item_code, e.integration_item_code, e.variant_id,
             b.actual_qty, b.warehouse, b.reserved_qty⟩ := by
  simp only [get_inventory_levels, joinPairs, List.mem_filterMap,
    List.mem_flatMap, List.mem_map, List.mem_filter]
  constructor
  · rintro ⟨p, ⟨e, he, b, ⟨hb, hjoin⟩, rfl⟩, hif⟩
    split at hif
    · next hcond =>
      simp only [Bool.and_eq_true, List.elem_iff, decide_eq_true_eq,
        beq_iff_eq] at hcond hjoin
      cases hif
      exact ⟨e, he, b, hb, hjoin, hcond.1.1, hcond.1.2, hcond.2, rfl⟩
    · exact absurd hif (by simp)
  · rintro ⟨e, he, b, hb, hjoin, hwh, hlt, hint, hr⟩
    refine ⟨(e, b), ⟨e, he, b, ⟨hb, by simp [hjoin]⟩, rfl⟩, ?_⟩
    rw [if_pos]
    · simp [hr]
    · simp [List.elem_iff, hwh, hlt, hint]

/-- The SQL `MAX` aggregate over a list of timestamps (0 on the empty
list; the query only compares maxima of nonempty groups). -/
def sql_max (l : List Nat) : Nat := l.foldr max 0

/-- A result row of `get_inventory_levels_of_group_warehouse` (selected
columns plus the `warehouse` field the Python loop sets afterwards). -/
structure GroupInventoryRow where
  ecom_item : String
  item_code : String
  integration_item_code : String
  variant_id : String
  actual_qty : Int
  reserved_qty : Int
  last_updated : Nat
  last_synced : Nat
  warehouse : String
deriving DecidableEq, Repr

/-- The join rows of the group-warehouse query after its `WHERE` clause:
warehouse among the group warehouse and its descendants, matching
integration. -/
def groupWhereRows (all_warehouses : List String) (integration : String)
    (ecomItems : List EcommerceItem) (bins : List Bin) :
    List (EcommerceItem × Bin) :=
  (joinPairs ecomItems bins).filter fun p =>
    all_warehouses.contains p.2.warehouse && p.1.integration == integration

/-- One output row of the group-warehouse query: the `GROUP BY
EcommerceItem.erpnext_item_code` group of key `k` among `rows`, with the
`SUM`/`MAX` aggregates, the `HAVING MAX(modified) > MAX(synced)` test, and
the group warehouse written into the `warehouse` field (the Python loop
after the query). -/
def group_row (warehouse : String) (rows : List (EcommerceItem × Bin))
    (k : String) : Option GroupInventoryRow :=
  match rows.filter fun p => p.1.erpnext_item_code == k with
  | [] => none
  | (e, b) :: tl =>
    let grp := (e, b) :: tl
    let last_updated := sql_max (grp.map fun p => p.2.modified)
    let last_synced := sql_max (grp.map fun p => p.1.inventory_synced_on)
    if last_synced < last_updated then
      some ⟨e.name, b.item_code, e.integration_item_code, e.variant_id,
            (grp.map fun p => p.2.actual_qty).sum,
            (grp.map fun p => p.2.reserved_qty).sum,
            last_updated, last_synced, warehouse⟩
    else
      none

/-- `get_inventory_levels_of_group_warehouse` from
`controllers/inventory.py`.  `descendants` stands for
`get_descendants_of("Warehouse", warehouse)` (a framework call): the
descendant warehouses of the group warehouse.  The query groups the join
rows by `EcommerceItem.erpnext_item_code`, sums the bin quantities and
takes the maxima of the timestamps over each group, keeps groups with
`MAX(Bin.modified) > MAX(EcommerceItem.inventory_synced_on)`, and the
Python loop then sets each row's warehouse to the group warehouse. -/
def get_inventory_levels_of_group_warehouse (warehouse : String)
    (integration : String) (descendants : List String)
    (ecomItems : List EcommerceItem) (bins : List Bin) :
    List GroupInventoryRow :=
  let all_warehouses := descendants ++ [warehouse]
  let rows := groupWhereRows all_warehouses integration ecomItems bins
  let keys := (rows.map fun p => p.1.erpnext_item_code).dedup
  keys.filterMap (group_row warehouse rows)

/-- The `Ecommerce Item` rows of a given integration whose
`erpnext_item_code` is `k`. -/
def matching_items (ecomItems : List EcommerceItem) (integration k : String) :
    List EcommerceItem :=
  ecomItems.filter fun e => e.erpnext_item_code == k && e.integration == integration

/-- The `Bin` rows for item `k` whose warehouse lies in the given warehouse
list. -/
def matching_bins (bins : List Bin) (all_warehouses : List String) (k : String) :
    List Bin :=
  bins.filter fun b => b.item_code == k && all_warehouses.contains b.warehouse

theorem string_beq_symm (a b : String) : (a == b) = (b == a) := by
  by_cases h : a = b
  · simp [h]
  · simp [beq_eq_false_iff_ne, h, Ne.symm h]

/-- The `GROUP BY` group of key `k` is the product of the matching
Ecommerce Items and the matching Bins: each matching bin appears once per
matching Ecommerce Item row. -/
theorem groupRows_eq (allW : List String) (integ k : String)
    (es : List EcommerceItem) (bs : List Bin) :
    ((groupWhereRows allW integ es bs).filter fun p => p.1.erpnext_item_code == k)
      = (matching_items es integ k).flatMap fun e =>
          (matching_bins bs allW k).map fun b => (e, b) := by
  induction es with
  | nil => simp [groupWhereRows, joinPairs, matching_items]
  | cons e es ih =>
    have hsplit :
        ((groupWhereRows allW integ (e :: es) bs).filter fun p =>
            p.1.erpnext_item_code == k)
          = ((((bs.filter fun b => e.erpnext_item_code == b.item_code).map
                fun b => (e, b)).filter fun p =>
                  allW.contains p.2.warehouse && p.1.integration == integ).filter
                fun p => p.1.erpnext_item_code == k)
            ++ ((groupWhereRows allW integ es bs).filter fun p =>
                  p.1.erpnext_item_code == k) := by
      simp [groupWhereRows, joinPairs, List.filter_append]
    rw [hsplit, ih, List.filter_map, List.filter_map]
    by_cases hk : e.erpnext_item_code = k
    · by_cases hi : e.integration = integ
      · have hm : matching_items (e :: es) integ k
            = e :: matching_items es integ k := by
          simp [matching_items, List.filter_cons, hk, hi]
        rw [hm]
        simp only [List.flatMap_cons]
        congr 1
        congr 1
        simp only [List.filter_filter]
        apply List.filter_congr
        intro b _
        by_cases hbk : b.item_code = k <;>
          by_cases hbw : allW.contains b.warehouse <;>
            simp [Function.comp, string_beq_symm k b.item_code, hbk, hbw, hk, hi,
              matching_bins, beq_eq_false_iff_ne, Bool.and_comm]
      · have hm : matching_items (e :: es) integ k = matching_items es integ k := by
          simp [matching_items, List.filter_cons, hi]
        have hz : ((bs.filter fun b => e.erpnext_item_code == b.item_code).filter
              ((fun p => allW.contains p.2.warehouse && p.1.integration == integ)
                ∘ fun b => (e, b))) = [] := by
          simp [Function.comp, beq_eq_false_iff_ne, hi]
        rw [hm, hz]
        simp
    · have hm : matching_items (e :: es) integ k = matching_items es integ k := by
        simp [matching_items, List.filter_cons, hk]
      have hz : (((bs.filter fun b => e.erpnext_item_code == b.item_code).filter
            ((fun p => allW.contains p.2.warehouse && p.1.integration == integ)
              ∘ fun b => (e, b))).filter
            ((fun p => p.1.erpnext_item_code == k) ∘ fun b => (e, b))) = [] := by
        simp [Function.comp, beq_eq_false_iff_ne, hk]
      rw [hm, hz]
      simp

theorem sql_max_append (l m : List Nat) :
    sql_max (l ++ m) = max (sql_max l) (sql_max m) := by
  induction l with
  | nil => simp [sql_max]
  | cons a l ih =>
    simp only [sql_max, List.foldr_cons, List.cons_append] at *
    rw [ih, Nat.max_assoc]

/-- Summing a bin-side projection over the product group multiplies the
plain bin sum by the number of matching Ecommerce Item rows. -/
theorem group_sum_snd (es : List EcommerceItem) (bsK : List Bin)
    (g : Bin → Int) :
    (((es.flatMap fun e => bsK.map fun b => (e, b)).map fun p => g p.2)).sum
      = es.length * (bsK.map g).sum := by
  induction es with
  | nil => simp
  | cons e es ih =>
    have hcomp : ((fun p : EcommerceItem × Bin => g p.2) ∘ fun b => (e, b)) = g := by
      funext b
      rfl
    simp only [List.flatMap_cons, List.map_append, List.sum_append, ih,
      List.map_map, List.length_cons, hcomp]
    push_cast
    ring

/-- The maximum of a bin-side projection over the product group is the
maximum over the matching bins, whenever some Ecommerce Item matches. -/
theorem group_max_snd (es : List EcommerceItem) (bsK : List Bin)
    (g : Bin → Nat) (h : es ≠ []) :
    sql_max ((es.flatMap fun e => bsK.map fun b => (e, b)).map fun p => g p.2)
      = sql_max (bsK.map g) := by
  induction es with
  | nil => exact absurd rfl h
  | cons e es ih =>
    have hhead : ((bsK.map fun b => (e, b)).map fun p => g p.2) = bsK.map g := by
      simp [List.map_map, Function.comp]
    rcases es with _ | ⟨e2, es⟩
    · simp [hhead]
    · have h2 := ih (by simp)
      simp only [List.flatMap_cons, List.map_append] at h2 ⊢
      rw [sql_max_append, hhead, h2, Nat.max_self]

theorem sql_max_replicate (n x : Nat) (h : n ≠ 0) :
    sql_max (List.replicate n x) = x := by
  induction n with
  | zero => exact absurd rfl h
  | succ n ih =>
    rcases Nat.eq_zero_or_pos n with h0 | h0
    · subst h0
      simp [sql_max]
    · rw [List.replicate_succ]
      simp only [sql_max] at ih ⊢
      rw [List.foldr_cons, ih (by omega), Nat.max_self]

/-- The maximum of an item-side projection over the product group is the
maximum over the matching Ecommerce Items, whenever some bin matches. -/
theorem group_max_fst (es : List EcommerceItem) (bsK : List Bin)
    (g : EcommerceItem → Nat) (h : bsK ≠ []) :
    sql_max ((es.flatMap fun e => bsK.map fun b => (e, b)).map fun p => g p.1)
      = sql_max (es.map g) := by
  induction es with
  | nil => simp
  | cons e es ih =>
    have hcomp : ((fun p : EcommerceItem × Bin => g p.1) ∘ fun b => (e, b))
        = fun _ => g e := by
      funext b
      rfl
    have hhead : ((bsK.map fun b => (e, b)).map fun p => g p.1)
        = List.replicate bsK.length (g e) := by
      rw [List.map_map, hcomp, List.map_const']
    simp only [List.flatMap_cons, List.map_append, List.map_cons]
    rw [sql_max_append, hhead,
      sql_max_replicate _ _ (by simpa [List.length_eq_zero] using h), ih]
    simp [sql_max]

theorem mem_groupWhereRows (allW : List String) (integ : String)
    (es : List EcommerceItem) (bs : List Bin) (p : EcommerceItem × Bin) :
    p ∈ groupWhereRows allW integ es bs ↔
      p.1 ∈ es ∧ p.2 ∈ bs ∧ p.1.erpnext_item_code = p.2.item_code ∧
        p.2.warehouse ∈ allW ∧ p.1.integration = integ := by
  rcases p with ⟨e, b⟩
  simp only [groupWhereRows, joinPairs, List.mem_filter, List.mem_flatMap,
    List.mem_map, List.mem_filter]
  constructor
  · rintro ⟨⟨e2, he2, b2, ⟨hb2, hjoin⟩, heq⟩, hcond⟩
    obtain ⟨rfl, rfl⟩ := Prod.mk.injEq .. ▸ heq
    simp only [Bool.and_eq_true, List.elem_iff, beq_iff_eq] at hcond hjoin
    exact ⟨he2, hb2, hjoin, hcond.1, hcond.2⟩
  · rintro ⟨he, hb, hjoin, hwh, hint⟩
    refine ⟨⟨e, he, b, ⟨hb, by simp [hjoin]⟩, rfl⟩, ?_⟩
    simp [List.elem_iff, hwh, hint]

theorem group_row_of_filter_nil (warehouse : String)
    (rows : List (EcommerceItem × Bin)) (k : String)
    (hf : rows.filter (fun p => p.1.erpnext_item_code == k) = []) :
    group_row warehouse rows k = none := by
  unfold group_row
  rw [hf]

theorem group_row_of_filter_cons (warehouse : String)
    (rows : List (EcommerceItem × Bin)) (k : String) (e : EcommerceItem)
    (b : Bin) (tl : List (EcommerceItem × Bin))
    (hf : rows.filter (fun p => p.1.erpnext_item_code == k) = (e, b) :: tl) :
    group_row warehouse rows k
      = (if sql_max (((e, b) :: tl).map fun p => p.1.inventory_synced_on)
            < sql_max (((e, b) :: tl).map fun p => p.2.modified) then
          some ⟨e.name, b.item_code, e.integration_item_code, e.variant_id,
            (((e, b) :: tl).map fun p => p.2.actual_qty).sum,
            (((e, b) :: tl).map fun p => p.2.reserved_qty).sum,
            sql_max (((e, b) :: tl).map fun p => p.2.modified),
            sql_max (((e, b) :: tl).map fun p => p.1.inventory_synced_on),
            warehouse⟩
        else none) := by
  unfold group_row
  rw [hf]

theorem group_row_some_of (warehouse integ k : String) (allW : List String)
    (es : List EcommerceItem) (bs : List Bin) (r : GroupInventoryRow)
    (h : group_row warehouse (groupWhereRows allW integ es bs) k = some r) :
    r.item_code = k ∧ r.warehouse = warehouse ∧
    r.actual_qty = (matching_items es integ k).length *
        ((matching_bins bs allW k).map Bin.actual_qty).sum ∧
    r.reserved_qty = (matching_items es integ k).length *
        ((matching_bins bs allW k).map Bin.reserved_qty).sum ∧
    matching_items es integ k ≠ [] ∧ matching_bins bs allW k ≠ [] ∧
    sql_max ((matching_items es integ k).map EcommerceItem.inventory_synced_on)
      < sql_max ((matching_bins bs allW k).map Bin.modified) := by
  rcases hG : (matching_items es integ k).flatMap
      fun e => (matching_bins bs allW k).map fun b => (e, b) with _ | ⟨⟨e, b⟩, tl⟩
  · rw [group_row_of_filter_nil _ _ _ (by rw [groupRows_eq, hG])] at h
    exact absurd h (by simp)
  · rw [group_row_of_filter_cons _ _ _ _ _ _ (by rw [groupRows_eq, hG])] at h
    have hpair : (e, b).1 ∈ matching_items es integ k ∧
        (e, b).2 ∈ matching_bins bs allW k := by
      have hmem : (e, b) ∈ (matching_items es integ k).flatMap
          fun e => (matching_bins bs allW k).map fun b => (e, b) := by
        rw [hG]
        exact List.mem_cons_self _ _
      simp only [List.mem_flatMap, List.mem_map, Prod.mk.injEq] at hmem
      obtain ⟨e2, he2, b2, hb2, he, hb⟩ := hmem
      exact ⟨he ▸ he2, hb ▸ hb2⟩
    have hMIne : matching_items es integ k ≠ [] := by
      intro hnil
      rw [hnil] at hpair
      exact absurd hpair.1 (List.not_mem_nil _)
    have hMBne : matching_bins bs allW k ≠ [] := by
      intro hnil
      rw [hnil] at hpair
      exact absurd hpair.2 (List.not_mem_nil _)
    have hbk : b.item_code = k := by
      have hf := List.mem_filter.mp hpair.2
      have := hf.2
      simp only [Bool.and_eq_true, beq_iff_eq] at this
      exact this.1
    have hlu : sql_max ((((e, b) :: tl).map fun p => p.2.modified))
        = sql_max ((matching_bins bs allW k).map Bin.modified) := by
      rw [← hG]
      exact group_max_snd _ _ _ hMIne
    have hls : sql_max ((((e, b) :: tl).map fun p => p.1.inventory_synced_on))
        = sql_max ((matching_items es integ k).map EcommerceItem.inventory_synced_on) := by
      rw [← hG]
      exact group_max_fst _ _ _ hMBne
    have haq : ((((e, b) :: tl).map fun p => p.2.actual_qty)).sum
        = (matching_items es integ k).length *
            ((matching_bins bs allW k).map Bin.actual_qty).sum := by
      rw [← hG]
      exact group_sum_snd _ _ _
    have hrq : ((((e, b) :: tl).map fun p => p.2.reserved_qty)).sum
        = (matching_items es integ k).length *
            ((matching_bins bs allW k).map Bin.reserved_qty).sum := by
      rw [← hG]
      exact group_sum_snd _ _ _
    split at h
    · next hcond =>
      cases h
      rw [hlu, hls] at hcond
      exact ⟨hbk, rfl, haq, hrq, hMIne, hMBne, hcond⟩
    · exact absurd h (by simp)

theorem group_row_isSome (warehouse integ k : String) (allW : List String)
    (es : List EcommerceItem) (bs : List Bin)
    (h1 : matching_items es integ k ≠ [])
    (h2 : matching_bins bs allW k ≠ [])
    (h3 : sql_max ((matching_items es integ k).map EcommerceItem.inventory_synced_on)
        < sql_max ((matching_bins bs allW k).map Bin.modified)) :
    ∃ r, group_row warehouse (groupWhereRows allW integ es bs) k = some r := by
  rcases hG : (matching_items es integ k).flatMap
      fun e => (matching_bins bs allW k).map fun b => (e, b) with _ | ⟨⟨e, b⟩, tl⟩
  · exfalso
    rcases List.exists_mem_of_ne_nil _ h1 with ⟨e, he⟩
    rcases List.exists_mem_of_ne_nil _ h2 with ⟨b, hb⟩
    have hmem : (e, b) ∈ (matching_items es integ k).flatMap
        fun e => (matching_bins bs allW k).map fun b => (e, b) := by
      rw [List.mem_flatMap]
      exact ⟨e, he, List.mem_map_of_mem _ hb⟩
    rw [hG] at hmem
    exact absurd hmem (List.not_mem_nil _)
  · have hlu : sql_max ((((e, b) :: tl).map fun p => p.2.modified))
        = sql_max ((matching_bins bs allW k).map Bin.modified) := by
      rw [← hG]
      exact group_max_snd _ _ _ h1
    have hls : sql_max ((((e, b) :: tl).map fun p => p.1.inventory_synced_on))
        = sql_max ((matching_items es integ k).map EcommerceItem.inventory_synced_on) := by
      rw [← hG]
      exact group_max_fst _ _ _ h2
    rw [group_row_of_filter_cons _ _ _ _ _ _ (by rw [groupRows_eq, hG])]
    rw [if_pos (by rw [hls, hlu]; exact h3)]
    exact ⟨_, rfl⟩

theorem map_filterMap_sublist {α β : Type} (f : α → Option β) (g : β → α)
    (l : List α) (h : ∀ a b, f a = some b → g b = a) :
    ((l.filterMap f).map g).Sublist l := by
  induction l with
  | nil => simp
  | cons a l ih =>
    cases hfa : f a with
    | none =>
      rw [List.filterMap_cons_none hfa]
      exact ih.cons a
    | some b =>
      rw [List.filterMap_cons_some hfa, List.map_cons, h a b hfa]
      exact ih.cons₂ a

/-- C2 (amended): `get_inventory_levels_of_group_warehouse` returns at most
one row per item; each row carries the group warehouse, and its
`actual_qty`/`reserved_qty` are the sums over the (Ecommerce Item, Bin)
join pairs of the item's group — the plain sums over the matching bins
multiplied by the number of matching Ecommerce Item rows.  A row is
returned for item `k` exactly when some Ecommerce Item of the integration
and some Bin in the group-warehouse subtree match `k` and the maximum Bin
modification time strictly exceeds the maximum `inventory_synced_on`. -/
theorem group_warehouse_inventory_characterization
    (warehouse integration : String) (descendants : List String)
    (ecomItems : List EcommerceItem) (bins : List Bin) :
    (((get_inventory_levels_of_group_warehouse warehouse integration
        descendants ecomItems bins).map GroupInventoryRow.item_code).Nodup)
    ∧ (∀ r ∈ get_inventory_levels_of_group_warehouse warehouse integration
          descendants ecomItems bins,
        r.warehouse = warehouse ∧
        r.actual_qty
          = (matching_items ecomItems integration r.item_code).length *
            ((matching_bins bins (descendants ++ [warehouse]) r.item_code).map
              Bin.actual_qty).sum ∧
        r.reserved_qty
          = (matching_items ecomItems integration r.item_code).length *
            ((matching_bins bins (descendants ++ [warehouse]) r.item_code).map
              Bin.reserved_qty).sum)
    ∧ (∀ k : String,
        (∃ r ∈ get_inventory_levels_of_group_warehouse warehouse integration
            descendants ecomItems bins, r.item_code = k)
          ↔ (matching_items ecomItems integration k ≠ [] ∧
             matching_bins bins (descendants ++ [warehouse]) k ≠ [] ∧
             sql_max ((matching_items ecomItems integration k).map
                 EcommerceItem.inventory_synced_on)
               < sql_max ((matching_bins bins (descendants ++ [warehouse]) k).map
                   Bin.modified))) := by
  unfold get_inventory_levels_of_group_warehouse
  refine ⟨?_, ?_, ?_⟩
  · have hsub := map_filterMap_sublist
      (group_row warehouse
        (groupWhereRows (descendants ++ [warehouse]) integration ecomItems bins))
      GroupInventoryRow.item_code
      ((groupWhereRows (descendants ++ [warehouse]) integration ecomItems
          bins).map fun p => p.1.erpnext_item_code).dedup
      (fun k r hk => (group_row_some_of _ _ _ _ _ _ _ hk).1)
    exact (List.nodup_dedup _).sublist hsub
  · intro r hr
    rw [List.mem_filterMap] at hr
    obtain ⟨k, _, hk⟩ := hr
    obtain ⟨hik, hwh, haq, hrq, _⟩ := group_row_some_of _ _ _ _ _ _ _ hk
    rw [hik]
    exact ⟨hwh, haq, hrq⟩
  · intro k
    constructor
    · rintro ⟨r, hr, hik⟩
      rw [List.mem_filterMap] at hr
      obtain ⟨k2, _, hk2⟩ := hr
      obtain ⟨hik2, _, _, _, h1, h2, h3⟩ := group_row_some_of _ _ _ _ _ _ _ hk2
      rw [hik2] at hik
      subst hik
      exact ⟨h1, h2, h3⟩
    · rintro ⟨h1, h2, h3⟩
      obtain ⟨r, hr⟩ := group_row_isSome warehouse integration k
        (descendants ++ [warehouse]) ecomItems bins h1 h2 h3
      refine ⟨r, ?_, (group_row_some_of _ _ _ _ _ _ _ hr).1⟩
      rw [List.mem_filterMap]
      refine ⟨k, ?_, hr⟩
      rw [List.mem_dedup, List.mem_map]
      obtain ⟨e, he⟩ := List.exists_mem_of_ne_nil _ h1
      obtain ⟨b, hb⟩ := List.exists_mem_of_ne_nil _ h2
      have heprops := List.mem_filter.mp he
      have hbprops := List.mem_filter.mp hb
      simp only [Bool.and_eq_true, beq_iff_eq, List.elem_iff] at heprops hbprops
      refine ⟨(e, b), ?_, heprops.2.1⟩
      rw [mem_groupWhereRows]
      exact ⟨heprops.1, hbprops.1, by rw [heprops.2.1, hbprops.2.1],
        hbprops.2.2, heprops.2.2⟩

/-- Two `Ecommerce Item` rows of integration `"I"` sharing the ERPNext item
code `"X"`. -/
def cxEcomItems : List EcommerceItem :=
  [⟨"E1", "X", "IX", "", "I", 0⟩, ⟨"E2", "X", "IX", "", "I", 0⟩]

/-- A single bin for item `"X"` in warehouse `"W"` with `actual_qty` 5. -/
def cxBins : List Bin := [⟨"X", "W", 5, 3, 10⟩]

/-- C2 counterexample: with two Ecommerce Item rows matching item `"X"`,
the query returns `actual_qty` 10, not the plain bin sum 5 — each bin is
counted once per matching Ecommerce Item row, refuting the claim that each
row's quantities are the sums over the matching Bin rows. -/
theorem group_warehouse_sum_not_plain_bin_sum :
    ¬ (∀ r ∈ get_inventory_levels_of_group_warehouse "W" "I" [] cxEcomItems cxBins,
        r.actual_qty
          = ((matching_bins cxBins ([] ++ ["W"]) r.item_code).map
              Bin.actual_qty).sum) := by
  decide

/-- `update_inventory_sync_status` from `controllers/inventory.py`:
`frappe.db.set_value("Ecommerce Item", ecommerce_item, "inventory_synced_on",
time)`, with `time` defaulting to the current time (`now`) when not
supplied. -/
def update_inventory_sync_status (items : List EcommerceItem)
    (ecommerce_item : String) (time : Option Nat) (now : Nat) :
    List EcommerceItem :=
  let t := match time with
    | none => now
    | some t0 => t0
  items.map fun e =>
    if e.name == ecommerce_item then { e with inventory_synced_on := t } else e

/-- C6: `update_inventory_sync_status` stamps the named Ecommerce Item's
`inventory_synced_on` with the supplied time, or with the current time when
no time is supplied; the table's names are untouched. -/
theorem update_inventory_sync_status_sets_time (items : List EcommerceItem)
    (ecommerce_item : String) (t now : Nat) :
    (∀ e ∈ update_inventory_sync_status items ecommerce_item (some t) now,
        e.name = ecommerce_item → e.inventory_synced_on = t)
    ∧ (∀ e ∈ update_inventory_sync_status items ecommerce_item none now,
        e.name = ecommerce_item → e.inventory_synced_on = now)
    ∧ (update_inventory_sync_status items ecommerce_item (some t) now).map
        EcommerceItem.name = items.map EcommerceItem.name := by
  refine ⟨?_, ?_, ?_⟩
  · intro e he hn
    rw [update_inventory_sync_status, List.mem_map] at he
    obtain ⟨e0, _, heq⟩ := he
    split at heq
    · cases heq
      rfl
    · next hc =>
      cases heq
      exact absurd (by simp [hn] : (e.name == ecommerce_item) = true) hc
  · intro e he hn
    rw [update_inventory_sync_status, List.mem_map] at he
    obtain ⟨e0, _, heq⟩ := he
    split at heq
    · cases heq
      rfl
    · next hc =>
      cases heq
      exact absurd (by simp [hn] : (e.name == ecommerce_item) = true) hc
  · rw [update_inventory_sync_status, List.map_map]
    apply List.map_congr_left
    intro e _
    by_cases h : e.name = ecommerce_item <;> simp [h]

/-- C6 witness: the theorem applied at a concrete table, name and times. -/
theorem update_inventory_sync_status_sets_time_witness :
    (∀ e ∈ update_inventory_sync_status cxEcomItems "E1" (some 5) 9,
        e.name = "E1" → e.inventory_synced_on = 5)
    ∧ (∀ e ∈ update_inventory_sync_status cxEcomItems "E1" none 9,
        e.name = "E1" → e.inventory_synced_on = 9)
    ∧ (update_inventory_sync_status cxEcomItems "E1" (some 5) 9).map
        EcommerceItem.name = cxEcomItems.map EcommerceItem.name :=
  update_inventory_sync_status_sets_time cxEcomItems "E1" 5 9

/-!
Model of `unicommerce/delivery_note.py`.

Python exceptions are modelled as values of `Exc`; fallible operations
return `Except Exc _`.  The Unicommerce HTTP client and the ERPNext
framework calls are supplied through an environment record `Env`; the
database tables the module touches form the state record `DB`.
-/

/-- A Python exception, reduced to its message. -/
structure Exc where
  message : String
deriving DecidableEq, Repr

/-- A shipping package returned by
`UnicommerceAPIClient.search_shipping_packages`.  `channel` is optional
because the code reads it with `p.get("channel")`. -/
structure ShippingPackage where
  code : String
  status : String
  channel : Option String
  saleOrderCode : String
deriving DecidableEq, Repr

/-- The fields of a Sales Order the module reads.  Modelled from the spec:
`ORDER_CODE_FIELD` (defined in `unicommerce/constants.py`, not under
`src/`) is the custom field holding the Unicommerce order code on a Sales
Order; it is kept distinct from `unicommerce_order_code` here. -/
structure SalesOrder where
  name : String
  order_code : String
  unicommerce_order_code : String
deriving DecidableEq, Repr

/-- The fields of a Sales Invoice the module reads. -/
structure SalesInvoice where
  name : String
  unicommerce_order_code : String
  unicommerce_shipping_package_code : String
deriving DecidableEq, Repr

/-- A Delivery Note as created by this module. -/
structure DeliveryNote where
  against_sales_order : String
  unicommerce_order_code : String
  unicommerce_shipment_id : String
  submitted : Bool
deriving DecidableEq, Repr

/-- A Unicommerce Integration Log entry.  Modelled from the spec:
`create_unicommerce_log` (in `unicommerce/utils.py`, not under `src/`)
appends a log entry recording a status, the calling method and, on
failure, the exception. -/
structure UnicommerceLog where
  status : Option String
  method : Option String
  error : Option Exc
deriving DecidableEq, Repr

/-- A row of the `Unicommerce Channel` doctype. -/
structure UnicommerceChannel where
  channel_id : String
  enabled : Bool
deriving DecidableEq, Repr

/-- The Unicommerce Settings fields the module reads.  Modelled from the
spec: `facilities` stands for the keys of
`settings.get_integration_to_erpnext_wh_mapping()` (the enabled facility
codes; the settings doctype is not under `src/`). -/
structure UnicommerceSettings where
  delivery_note : Bool
  order_status_days : Option Nat
  facilities : List String
deriving DecidableEq, Repr

/-- The database state the module reads and writes. -/
structure DB where
  delivery_notes : List DeliveryNote
  sales_orders : List SalesOrder
  sales_invoices : List SalesInvoice
  logs : List UnicommerceLog
deriving DecidableEq, Repr

/-- The environment: cached settings, the `Unicommerce Channel` table, the
HTTP client's `search_shipping_packages` (facility code and `updated_since`
minutes to the packages, or an exception), and the outcome of the
framework's document save/submit for a given draft note (modelled from the
spec: the ERPNext framework is a declared non-goal, so validation failures
are environment-determined). -/
structure Env where
  settings : UnicommerceSettings
  channels : List UnicommerceChannel
  search_shipping_packages : String → Nat → Except Exc (List ShippingPackage)
  submit_result : DeliveryNote → Option Exc

/-- `days_to_sync = min(settings.get("order_status_days") or 2, 14)`:
Python `or` replaces a missing or zero value by 2. -/
def days_to_sync (s : UnicommerceSettings) : Nat :=
  min (match s.order_status_days with
        | none => 2
        | some 0 => 2
        | some n => n) 14

/-- `minutes = days_to_sync * 24 * 60`. -/
def sync_minutes (s : UnicommerceSettings) : Nat :=
  days_to_sync s * 24 * 60

/-- Modelled from the spec: `make_delivery_note` from ERPNext (the host
framework, a declared non-goal of the spec) maps a Sales Order to a new
draft Delivery Note against it. -/
def make_delivery_note (so : SalesOrder) : DeliveryNote :=
  ⟨so.name, "", "", false⟩

/-- `create_delivery_note(so, sales_invoice)` from
`unicommerce/delivery_note.py`: make a delivery note from the sales order,
copy `unicommerce_order_code` and the shipping package code from the sales
invoice, save and submit it, then write a `Success` log (via
`create_unicommerce_log`, whose method name in the source is the literal
`"create_delevery_note"`), returning the new record. -/
def create_delivery_note (env : Env) (so : SalesOrder)
    (sales_invoice : SalesInvoice) (db : DB) :
    Except Exc (DeliveryNote × DB) :=
  let res := make_delivery_note so
  let res := { res with
    unicommerce_order_code := sales_invoice.unicommerce_order_code,
    unicommerce_shipment_id := sales_invoice.unicommerce_shipping_package_code }
  match env.submit_result res with
  | some e => .error e
  | none =>
    let res := { res with submitted := true }
    .ok (res, { db with
      delivery_notes := db.delivery_notes ++ [res],
      logs := db.logs ++ [⟨some "Success", some "create_delevery_note", none⟩] })

/-- `frappe.db.exists("Delivery Note", {"unicommerce_shipment_id": code})`. -/
def dnExists (notes : List DeliveryNote) (code : String) : Bool :=
  notes.any fun d => d.unicommerce_shipment_id == code

/-- The body of the inner loop of `prepare_delivery_note` for one shipped
package: skip when a Delivery Note with the package's code exists, when no
Sales Order carries `ORDER_CODE_FIELD = saleOrderCode`, or when no Sales
Invoice carries the sales order's `unicommerce_order_code`; otherwise
create and submit the delivery note.  `frappe.db.exists` followed by
`frappe.get_doc` on the same filters is modelled as `List.find?`. -/
def process_package (env : Env) (db : DB) (order : ShippingPackage) :
    Except Exc DB :=
  if dnExists db.delivery_notes order.code then .ok db
  else
    match db.sales_orders.find? fun so => so.order_code == order.saleOrderCode with
    | none => .ok db
    | some sales_order =>
      match db.sales_invoices.find? fun si =>
          si.unicommerce_order_code == sales_order.unicommerce_order_code with
      | none => .ok db
      | some sales_invoice =>
        (create_delivery_note env sales_order sales_invoice db).map (·.2)

/-- Whether a package's channel is among the enabled channel ids:
`p.get("channel") in enabled_channels` (a missing channel is never in the
list). -/
def channel_ok (enabled_channels : List String) (p : ShippingPackage) : Bool :=
  match p.channel with
  | some c => enabled_channels.contains c
  | none => false

/-- One iteration of the facility loop of `prepare_delivery_note`: fetch
the packages updated since `minutes`, keep those on an enabled channel,
skip the facility if none remain, keep the `DISPATCHED` ones and process
them in order. -/
def process_facility (env : Env) (enabled_channels : List String) (db : DB)
    (facility : String) : Except Exc DB := do
  let updated_packages ←
    env.search_shipping_packages facility (sync_minutes env.settings)
  let valid_packages := updated_packages.filter (channel_ok enabled_channels)
  if valid_packages.isEmpty then .ok db
  else
    let shipped_packages := valid_packages.filter fun p => p.status == "DISPATCHED"
    shipped_packages.foldlM (process_package env) db

/-- The `try` body of `prepare_delivery_note`: return at once when the
settings' `delivery_note` flag is off, otherwise read the enabled channels
and run the facility loop. -/
def prepare_delivery_note_body (env : Env) (db : DB) : Except Exc DB :=
  if !env.settings.delivery_note then .ok db
  else
    let enabled_channels := (env.channels.filter (·.enabled)).map (·.channel_id)
    env.settings.facilities.foldlM (process_facility env enabled_channels) db

/-- `prepare_delivery_note` from `unicommerce/delivery_note.py`: run the
body and, on any exception, call
`create_unicommerce_log(status="Error", exception=e, rollback=True)` —
modelled from the spec as discarding the run's uncommitted changes and
appending an `Error` log entry recording the exception. -/
def prepare_delivery_note (env : Env) (db : DB) : DB :=
  match prepare_delivery_note_body env db with
  | .ok db2 => db2
  | .error e => { db with logs := db.logs ++ [⟨some "Error", none, some e⟩] }

instance {ε α : Type} [DecidableEq ε] [DecidableEq α] :
    DecidableEq (Except ε α) := fun a b =>
  match a, b with
  | .ok x, .ok y =>
    if h : x = y then .isTrue (by rw [h]) else .isFalse (fun hc => h (Except.ok.inj hc))
  | .error x, .error y =>
    if h : x = y then .isTrue (by rw [h]) else .isFalse (fun hc => h (Except.error.inj hc))
  | .ok _, .error _ => .isFalse (fun hc => Except.noConfusion hc)
  | .error _, .ok _ => .isFalse (fun hc => Except.noConfusion hc)

/-- A sales order whose `ORDER_CODE_FIELD` is `"UNI-SO1"`. -/
def exSO : SalesOrder := ⟨"SO-1", "UNI-SO1", "UO1"⟩

/-- A sales invoice for order code `"UO1"` and shipping package `"PKG1"`. -/
def exSI : SalesInvoice := ⟨"SI-1", "UO1", "PKG1"⟩

/-- A dispatched package on channel `"C1"` for sale order `"UNI-SO1"`. -/
def exPkg : ShippingPackage := ⟨"PKG1", "DISPATCHED", some "C1", "UNI-SO1"⟩

/-- Settings with the delivery-note flag on and one facility. -/
def exSettings : UnicommerceSettings := ⟨true, none, ["F1"]⟩

/-- An environment whose API returns the one dispatched package and whose
submits succeed. -/
def exEnv : Env :=
  ⟨exSettings, [⟨"C1", true⟩], fun _ _ => .ok [exPkg], fun _ => none⟩

/-- Initial state: the matching sales order and invoice, no delivery note. -/
def exDb : DB := ⟨[], [exSO], [exSI], []⟩

/-- The delivery note `prepare_delivery_note` creates from `exDb`. -/
def exNote : DeliveryNote := ⟨"SO-1", "UO1", "PKG1", true⟩

/-- The state after a successful run on `exDb`. -/
def exDb2 : DB :=
  ⟨[exNote], [exSO], [exSI], [⟨some "Success", some "create_delevery_note", none⟩]⟩

/-- An environment with the delivery-note flag off. -/
def exEnvOff : Env :=
  ⟨⟨false, none, ["F1"]⟩, [⟨"C1", true⟩], fun _ _ => .ok [exPkg], fun _ => none⟩

/-- An environment whose API call raises. -/
def exEnvErr : Env :=
  ⟨exSettings, [⟨"C1", true⟩], fun _ _ => .error ⟨"boom"⟩, fun _ => none⟩

/-- C9: with the cached settings' `delivery_note` flag disabled,
`prepare_delivery_note` returns the state unchanged — no record is created
or modified, and the result does not depend on the API, the facilities or
the channels. -/
theorem prepare_delivery_note_disabled (env : Env) (db : DB)
    (h : env.settings.delivery_note = false) :
    prepare_delivery_note env db = db := by
  simp [prepare_delivery_note, prepare_delivery_note_body, h]

/-- C9 witness: the theorem applied to a concrete disabled environment. -/
theorem prepare_delivery_note_disabled_witness :
    prepare_delivery_note exEnvOff exDb = exDb :=
  prepare_delivery_note_disabled exEnvOff exDb rfl

/-- C4: any exception raised inside the body of `prepare_delivery_note` is
caught (the function is total on states) and turns into an `Error` log
entry recording the exception. -/
theorem prepare_delivery_note_catches (env : Env) (db : DB) (e : Exc)
    (h : prepare_delivery_note_body env db = .error e) :
    prepare_delivery_note env db
      = { db with logs := db.logs ++ [⟨some "Error", none, some e⟩] } := by
  unfold prepare_delivery_note
  rw [h]

/-- C4 witness: the theorem applied to an environment whose API raises. -/
theorem prepare_delivery_note_catches_witness :
    prepare_delivery_note exEnvErr exDb
      = { exDb with logs := exDb.logs ++ [⟨some "Error", none, some ⟨"boom"⟩⟩] } :=
  prepare_delivery_note_catches exEnvErr exDb ⟨"boom"⟩ (by decide)

/-- C8: when the body of `prepare_delivery_note` raises, the run's changes
are rolled back: every table is as before, except for the appended `Error`
log entry. -/
theorem prepare_delivery_note_atomic_on_error (env : Env) (db : DB) (e : Exc)
    (h : prepare_delivery_note_body env db = .error e) :
    (prepare_delivery_note env db).delivery_notes = db.delivery_notes
    ∧ (prepare_delivery_note env db).sales_orders = db.sales_orders
    ∧ (prepare_delivery_note env db).sales_invoices = db.sales_invoices
    ∧ (prepare_delivery_note env db).logs
        = db.logs ++ [⟨some "Error", none, some e⟩] := by
  unfold prepare_delivery_note
  rw [h]
  exact ⟨rfl, rfl, rfl, rfl⟩

/-- C8 witness: the theorem applied to an environment whose API raises. -/
theorem prepare_delivery_note_atomic_on_error_witness :
    (prepare_delivery_note exEnvErr exDb).delivery_notes = exDb.delivery_notes
    ∧ (prepare_delivery_note exEnvErr exDb).sales_orders = exDb.sales_orders
    ∧ (prepare_delivery_note exEnvErr exDb).sales_invoices = exDb.sales_invoices
    ∧ (prepare_delivery_note exEnvErr exDb).logs
        = exDb.logs ++ [⟨some "Error", none, some ⟨"boom"⟩⟩] :=
  prepare_delivery_note_atomic_on_error exEnvErr exDb ⟨"boom"⟩ (by decide)

/-- C7: a successful `create_delivery_note` builds the note from the sales
order, copies the order code and the shipping package code from the sales
invoice, submits it, appends exactly that note, writes a `Success` log
entry, and returns the new record; the other tables are untouched. -/
theorem create_delivery_note_spec (env : Env) (so : SalesOrder)
    (si : SalesInvoice) (db : DB) (res : DeliveryNote) (db2 : DB)
    (h : create_delivery_note env so si db = .ok (res, db2)) :
    res.against_sales_order = so.name
    ∧ res.unicommerce_order_code = si.unicommerce_order_code
    ∧ res.unicommerce_shipment_id = si.unicommerce_shipping_package_code
    ∧ res.submitted = true
    ∧ db2.delivery_notes = db.delivery_notes ++ [res]
    ∧ db2.logs = db.logs ++ [⟨some "Success", some "create_delevery_note", none⟩]
    ∧ db2.sales_orders = db.sales_orders
    ∧ db2.sales_invoices = db.sales_invoices := by
  simp only [create_delivery_note, make_delivery_note] at h
  split at h
  · exact absurd h (by simp)
  · rw [Except.ok.injEq, Prod.mk.injEq] at h
    obtain ⟨hres, hdb⟩ := h
    subst hres
    subst hdb
    exact ⟨rfl, rfl, rfl, rfl, rfl, rfl, rfl, rfl⟩

/-- C7 witness: the theorem applied to the concrete order, invoice and
state. -/
theorem create_delivery_note_spec_witness :
    exNote.against_sales_order = exSO.name
    ∧ exNote.unicommerce_order_code = exSI.unicommerce_order_code
    ∧ exNote.unicommerce_shipment_id = exSI.unicommerce_shipping_package_code
    ∧ exNote.submitted = true
    ∧ exDb2.delivery_notes = exDb.delivery_notes ++ [exNote]
    ∧ exDb2.logs = exDb.logs ++ [⟨some "Success", some "create_delevery_note", none⟩]
    ∧ exDb2.sales_orders = exDb.sales_orders
    ∧ exDb2.sales_invoices = exDb.sales_invoices :=
  create_delivery_note_spec exEnv exSO exSI exDb exNote exDb2 (by decide)

/-!
Spec side of C1: the claim's five conditions, written out flatly, and the
note it expects per qualifying package.  The claim is settled by proving
the implementation's run equal to a fold of these.
-/

/-- C1's conditions on a returned package, against the current tables:
status `DISPATCHED`, channel among the enabled ones, no delivery note with
the package's code, a sales order with the package's `saleOrderCode` as its
order-code field, and a sales invoice with that order's
`unicommerce_order_code`. -/
def c1_qualifies (ch : List String) (notes : List DeliveryNote)
    (sos : List SalesOrder) (sis : List SalesInvoice)
    (p : ShippingPackage) : Bool :=
  p.status == "DISPATCHED"
  && channel_ok ch p
  && !(dnExists notes p.code)
  && (match sos.find? fun so => so.order_code == p.saleOrderCode with
      | none => false
      | some so =>
        (sis.find? fun si =>
          si.unicommerce_order_code == so.unicommerce_order_code).isSome)

/-- The submitted delivery note the claim expects for a package: built
against the matched sales order, carrying the matched invoice's order code
and shipping package code (empty when no order or invoice matches). -/
def c1_note (sos : List SalesOrder) (sis : List SalesInvoice)
    (p : ShippingPackage) : List DeliveryNote :=
  match sos.find? fun so => so.order_code == p.saleOrderCode with
  | none => []
  | some so =>
    match sis.find? fun si =>
        si.unicommerce_order_code == so.unicommerce_order_code with
    | none => []
    | some si =>
      [⟨so.name, si.unicommerce_order_code,
        si.unicommerce_shipping_package_code, true⟩]

/-- Spec step for one package: append its note exactly when it
qualifies. -/
def c1_step (sos : List SalesOrder) (sis : List SalesInvoice)
    (ch : List String) (notes : List DeliveryNote) (p : ShippingPackage) :
    List DeliveryNote :=
  if c1_qualifies ch notes sos sis p then notes ++ c1_note sos sis p else notes

/-- Spec step for one facility: fetch its packages and fold the package
step over all of them. -/
def c1_facility_step (env : Env) (sos : List SalesOrder)
    (sis : List SalesInvoice) (ch : List String)
    (notes : List DeliveryNote) (facility : String) :
    Except Exc (List DeliveryNote) := do
  let pkgs ← env.search_shipping_packages facility (sync_minutes env.settings)
  pure (pkgs.foldl (c1_step sos sis ch) notes)

/-- The delivery-note table C1 predicts after a run: the previous notes
followed by one submitted note per qualifying package, in facility and
package order. -/
def c1_spec_notes (env : Env) (db : DB) : Except Exc (List DeliveryNote) :=
  let enabled_channels := (env.channels.filter (·.enabled)).map (·.channel_id)
  env.settings.facilities.foldlM
    (c1_facility_step env db.sales_orders db.sales_invoices enabled_channels)
    db.delivery_notes

@[simp] theorem except_ok_bind {α β : Type} (a : α) (g : α → Except Exc β) :
    (Except.ok a >>= g) = g a := rfl

@[simp] theorem except_error_bind {α β : Type} (e : Exc) (g : α → Except Exc β) :
    ((Except.error e : Except Exc α) >>= g) = .error e := rfl

theorem except_bind_ok {α β : Type} (x : Except Exc α) (g : α → Except Exc β)
    (b : β) : x >>= g = .ok b ↔ ∃ a, x = .ok a ∧ g a = .ok b := by
  cases x with
  | ok a => simp
  | error e => simp

/-- `process_facility` without its redundant empty-list early exit: the
fold over the doubly filtered package list. -/
theorem process_facility_eq (env : Env) (ch : List String) (db : DB)
    (facility : String) :
    process_facility env ch db facility
      = env.search_shipping_packages facility (sync_minutes env.settings)
          >>= fun pkgs =>
            ((pkgs.filter (channel_ok ch)).filter
                fun p => p.status == "DISPATCHED").foldlM
              (process_package env) db := by
  unfold process_facility
  cases env.search_shipping_packages facility (sync_minutes env.settings) with
  | error e => rfl
  | ok pkgs =>
    simp only [except_ok_bind]
    cases h : (pkgs.filter (channel_ok ch)).isEmpty with
    | true =>
      rw [List.isEmpty_iff] at h
      simp [h]
      rfl
    | false => simp [h]

/-- One package step of the implementation agrees with the spec step
`c1_step` on the delivery-note table and preserves the other tables, for a
channel-valid dispatched package. -/
theorem process_package_sim (env : Env) (dbf : DB) (ch : List String)
    (s : DB) (p : ShippingPackage) (s2 : DB)
    (hso : s.sales_orders = dbf.sales_orders)
    (hsi : s.sales_invoices = dbf.sales_invoices)
    (hch : channel_ok ch p = true)
    (hst : (p.status == "DISPATCHED") = true)
    (h : process_package env s p = .ok s2) :
    s2.delivery_notes
      = c1_step dbf.sales_orders dbf.sales_invoices ch s.delivery_notes p
    ∧ s2.sales_orders = dbf.sales_orders
    ∧ s2.sales_invoices = dbf.sales_invoices := by
  unfold process_package at h
  rw [hso, hsi] at h
  cases hdn : dnExists s.delivery_notes p.code with
  | true =>
    rw [hdn] at h
    simp only [if_true] at h
    cases h
    refine ⟨?_, hso, hsi⟩
    simp [c1_step, c1_qualifies, hdn]
  | false =>
    rw [hdn] at h
    simp only [Bool.false_eq_true, if_false] at h
    cases hfso : dbf.sales_orders.find? fun so =>
        so.order_code == p.saleOrderCode with
    | none =>
      rw [hfso] at h
      dsimp only at h
      cases h
      refine ⟨?_, hso, hsi⟩
      simp [c1_step, c1_qualifies, hfso]
    | some so =>
      rw [hfso] at h
      dsimp only at h
      cases hfsi : dbf.sales_invoices.find? fun si =>
          si.unicommerce_order_code == so.unicommerce_order_code with
      | none =>
        rw [hfsi] at h
        dsimp only at h
        cases h
        refine ⟨?_, hso, hsi⟩
        simp [c1_step, c1_qualifies, hfso, hfsi]
      | some si =>
        rw [hfsi] at h
        dsimp only at h
        simp only [create_delivery_note, make_delivery_note] at h
        cases hsub : env.submit_result ⟨so.name, si.unicommerce_order_code,
            si.unicommerce_shipping_package_code, false⟩ with
        | some e =>
          rw [hsub] at h
          exact absurd h (by simp [Except.map])
        | none =>
          rw [hsub] at h
          simp only [Except.map] at h
          cases h
          refine ⟨?_, hso, hsi⟩
          simp [c1_step, c1_qualifies, c1_note, hdn, hst, hch, hfso, hfsi]

/-- The implementation's fold over the channel-valid dispatched packages
agrees with the spec fold `c1_step` over all returned packages. -/
theorem foldlM_packages_sim (env : Env) (dbf : DB) (ch : List String) :
    ∀ (pkgs : List ShippingPackage) (s t : DB),
      s.sales_orders = dbf.sales_orders →
      s.sales_invoices = dbf.sales_invoices →
      ((pkgs.filter (channel_ok ch)).filter
          fun p => p.status == "DISPATCHED").foldlM (process_package env) s
        = .ok t →
      pkgs.foldl (c1_step dbf.sales_orders dbf.sales_invoices ch)
          s.delivery_notes = t.delivery_notes
      ∧ t.sales_orders = dbf.sales_orders
      ∧ t.sales_invoices = dbf.sales_invoices := by
  intro pkgs
  induction pkgs with
  | nil =>
    intro s t hso hsi h
    simp only [List.filter_nil, List.foldlM_nil] at h
    cases h
    exact ⟨rfl, hso, hsi⟩
  | cons p pkgs ih =>
    intro s t hso hsi h
    rw [List.foldl_cons]
    cases hch : channel_ok ch p with
    | false =>
      have hfil : ((p :: pkgs).filter (channel_ok ch))
          = pkgs.filter (channel_ok ch) := by
        simp [List.filter_cons, hch]
      rw [hfil] at h
      have hstep : c1_step dbf.sales_orders dbf.sales_invoices ch
          s.delivery_notes p = s.delivery_notes := by
        simp [c1_step, c1_qualifies, hch]
      rw [hstep]
      exact ih s t hso hsi h
    | true =>
      cases hst : (p.status == "DISPATCHED") with
      | false =>
        have hfil : (((p :: pkgs).filter (channel_ok ch)).filter
              fun p => p.status == "DISPATCHED")
            = ((pkgs.filter (channel_ok ch)).filter
                fun p => p.status == "DISPATCHED") := by
          simp [List.filter_cons, hch, hst]
        rw [hfil] at h
        have hstep : c1_step dbf.sales_orders dbf.sales_invoices ch
            s.delivery_notes p = s.delivery_notes := by
          simp [c1_step, c1_qualifies, hst]
        rw [hstep]
        exact ih s t hso hsi h
      | true =>
        have hfil : (((p :: pkgs).filter (channel_ok ch)).filter
              fun p => p.status == "DISPATCHED")
            = p :: ((pkgs.filter (channel_ok ch)).filter
                fun p => p.status == "DISPATCHED") := by
          simp [List.filter_cons, hch, hst]
        rw [hfil, List.foldlM_cons, except_bind_ok] at h
        obtain ⟨s1, hstep1, hrest⟩ := h
        obtain ⟨hnotes, hso1, hsi1⟩ :=
          process_package_sim env dbf ch s p s1 hso hsi hch hst hstep1
        rw [← hnotes]
        exact ih s1 t hso1 hsi1 hrest

/-- The implementation's fold over the facilities agrees with the spec
fold `c1_facility_step` and preserves the order and invoice tables. -/
theorem foldlM_facilities_sim (env : Env) (dbf : DB) (ch : List String) :
    ∀ (facs : List String) (s t : DB),
      s.sales_orders = dbf.sales_orders →
      s.sales_invoices = dbf.sales_invoices →
      facs.foldlM (process_facility env ch) s = .ok t →
      facs.foldlM (c1_facility_step env dbf.sales_orders dbf.sales_invoices ch)
          s.delivery_notes = .ok t.delivery_notes
      ∧ t.sales_orders = dbf.sales_orders
      ∧ t.sales_invoices = dbf.sales_invoices := by
  intro facs
  induction facs with
  | nil =>
    intro s t hso hsi h
    simp only [List.foldlM_nil] at h ⊢
    cases h
    exact ⟨rfl, hso, hsi⟩
  | cons f facs ih =>
    intro s t hso hsi h
    rw [List.foldlM_cons, except_bind_ok] at h
    obtain ⟨s1, hfac, hrest⟩ := h
    rw [process_facility_eq, except_bind_ok] at hfac
    obtain ⟨pkgs, hapi, hfold⟩ := hfac
    obtain ⟨hnotes, hso1, hsi1⟩ :=
      foldlM_packages_sim env dbf ch pkgs s s1 hso hsi hfold
    obtain ⟨hspec, hso2, hsi2⟩ := ih s1 t hso1 hsi1 hrest
    refine ⟨?_, hso2, hsi2⟩
    rw [List.foldlM_cons]
    unfold c1_facility_step
    rw [hapi]
    simp only [except_ok_bind]
    show (pure (pkgs.foldl (c1_step dbf.sales_orders dbf.sales_invoices ch)
        s.delivery_notes) : Except Exc _) >>= _ = _
    rw [hnotes]
    simpa using hspec

/-- C1: when the flag is on and a run of `prepare_delivery_note`'s body
succeeds, the resulting delivery-note table is exactly the previous notes
followed by one submitted note per returned shipping package satisfying
all five of the claim's conditions (status `DISPATCHED`, enabled channel,
no delivery note with the package's code yet, a sales order matching
`saleOrderCode`, a sales invoice matching that order's
`unicommerce_order_code`) — and no note for any package failing one of
them. -/
theorem prepare_run_matches_c1_conditions (env : Env) (db db2 : DB)
    (hflag : env.settings.delivery_note = true)
    (h : prepare_delivery_note_body env db = .ok db2) :
    c1_spec_notes env db = .ok db2.delivery_notes := by
  unfold prepare_delivery_note_body at h
  rw [hflag] at h
  simp only [Bool.not_true, Bool.false_eq_true, if_false] at h
  exact (foldlM_facilities_sim env db _ env.settings.facilities db db2
    rfl rfl h).1

/-- C1 witness: a concrete successful run on one qualifying package. -/
theorem prepare_run_matches_c1_conditions_witness :
    c1_spec_notes exEnv exDb = .ok exDb2.delivery_notes :=
  prepare_run_matches_c1_conditions exEnv exDb exDb2 rfl (by decide)

/-!
C5: idempotency.  The package step only appends delivery notes and leaves
the order and invoice tables alone; a package is skipped whenever a note
with its code exists or its order or invoice lookup fails; and after a
successful run every returned package is skipped — provided the matched
invoice's `unicommerce_shipping_package_code` coincides with the package's
`code`, which is what the created note's `unicommerce_shipment_id` is
compared against on the next run.
-/

/-- One package step only appends delivery notes and preserves the other
tables. -/
theorem process_package_mono (env : Env) (s : DB) (p : ShippingPackage)
    (s2 : DB) (h : process_package env s p = .ok s2) :
    (∃ l, s2.delivery_notes = s.delivery_notes ++ l)
    ∧ s2.sales_orders = s.sales_orders
    ∧ s2.sales_invoices = s.sales_invoices := by
  unfold process_package at h
  cases hdn : dnExists s.delivery_notes p.code with
  | true =>
    rw [hdn] at h
    simp only [if_true] at h
    cases h
    exact ⟨⟨[], by simp⟩, rfl, rfl⟩
  | false =>
    rw [hdn] at h
    simp only [Bool.false_eq_true, if_false] at h
    cases hfso : s.sales_orders.find? fun so =>
        so.order_code == p.saleOrderCode with
    | none =>
      rw [hfso] at h
      dsimp only at h
      cases h
      exact ⟨⟨[], by simp⟩, rfl, rfl⟩
    | some so =>
      rw [hfso] at h
      dsimp only at h
      cases hfsi : s.sales_invoices.find? fun si =>
          si.unicommerce_order_code == so.unicommerce_order_code with
      | none =>
        rw [hfsi] at h
        dsimp only at h
        cases h
        exact ⟨⟨[], by simp⟩, rfl, rfl⟩
      | some si =>
        rw [hfsi] at h
        dsimp only at h
        simp only [create_delivery_note, make_delivery_note] at h
        cases hsub : env.submit_result ⟨so.name, si.unicommerce_order_code,
            si.unicommerce_shipping_package_code, false⟩ with
        | some e =>
          rw [hsub] at h
          exact absurd h (by simp [Except.map])
        | none =>
          rw [hsub] at h
          simp only [Except.map] at h
          cases h
          exact ⟨⟨_, rfl⟩, rfl, rfl⟩

/-- Folding any step that only appends delivery notes and preserves the
other tables again only appends and preserves. -/
theorem foldlM_mono_db {α : Type} (f : DB → α → Except Exc DB)
    (hf : ∀ s a t, f s a = .ok t →
      (∃ l, t.delivery_notes = s.delivery_notes ++ l)
      ∧ t.sales_orders = s.sales_orders ∧ t.sales_invoices = s.sales_invoices) :
    ∀ (L : List α) (s t : DB), L.foldlM f s = .ok t →
      (∃ l, t.delivery_notes = s.delivery_notes ++ l)
      ∧ t.sales_orders = s.sales_orders
      ∧ t.sales_invoices = s.sales_invoices := by
  intro L
  induction L with
  | nil =>
    intro s t h
    simp only [List.foldlM_nil] at h
    cases h
    exact ⟨⟨[], by simp⟩, rfl, rfl⟩
  | cons a L ih =>
    intro s t h
    rw [List.foldlM_cons, except_bind_ok] at h
    obtain ⟨s1, h1, h2⟩ := h
    obtain ⟨⟨l1, hl1⟩, hso1, hsi1⟩ := hf s a s1 h1
    obtain ⟨⟨l2, hl2⟩, hso2, hsi2⟩ := ih s1 t h2
    exact ⟨⟨l1 ++ l2, by rw [hl2, hl1, List.append_assoc]⟩,
      hso2.trans hso1, hsi2.trans hsi1⟩

/-- One facility step only appends delivery notes and preserves the other
tables. -/
theorem process_facility_mono (env : Env) (ch : List String) (s : DB)
    (facility : String) (t : DB)
    (h : process_facility env ch s facility = .ok t) :
    (∃ l, t.delivery_notes = s.delivery_notes ++ l)
    ∧ t.sales_orders = s.sales_orders
    ∧ t.sales_invoices = s.sales_invoices := by
  rw [process_facility_eq, except_bind_ok] at h
  obtain ⟨pkgs, _, hfold⟩ := h
  exact foldlM_mono_db _ (process_package_mono env) _ s t hfold

/-- A package is skipped when a delivery note with its code exists, its
sales order lookup fails, or its sales invoice lookup fails. -/
def pkg_skips (db : DB) (p : ShippingPackage) : Prop :=
  dnExists db.delivery_notes p.code = true
  ∨ (db.sales_orders.find? fun so => so.order_code == p.saleOrderCode) = none
  ∨ ∃ so, (db.sales_orders.find? fun so2 =>
        so2.order_code == p.saleOrderCode) = some so
      ∧ (db.sales_invoices.find? fun si =>
          si.unicommerce_order_code == so.unicommerce_order_code) = none

theorem process_package_skip (env : Env) (s : DB) (p : ShippingPackage)
    (h : pkg_skips s p) : process_package env s p = .ok s := by
  unfold process_package
  cases hdn : dnExists s.delivery_notes p.code with
  | true => simp
  | false =>
    simp only [Bool.false_eq_true, if_false]
    rcases h with h | h | ⟨so, hso, hsi⟩
    · rw [h] at hdn
      cases hdn
    · rw [h]
    · rw [hso]
      dsimp only
      rw [hsi]

/-- Skipping survives appending delivery notes and keeping the other
tables. -/
theorem pkg_skips_mono (s t : DB) (p : ShippingPackage)
    (l : List DeliveryNote)
    (hn : t.delivery_notes = s.delivery_notes ++ l)
    (hso : t.sales_orders = s.sales_orders)
    (hsi : t.sales_invoices = s.sales_invoices)
    (h : pkg_skips s p) : pkg_skips t p := by
  rcases h with h | h | ⟨so, h1, h2⟩
  · left
    unfold dnExists at h ⊢
    rw [hn, List.any_append, h]
    rfl
  · right
    left
    rw [hso]
    exact h
  · right
    right
    exact ⟨so, by rw [hso]; exact h1, by rw [hsi]; exact h2⟩

/-- Whether the invoice the module matches to a package carries the
package's own code as its shipping package code. -/
def invoice_code_matches (db : DB) (p : ShippingPackage) : Prop :=
  ∀ so si,
    (db.sales_orders.find? fun so2 => so2.order_code == p.saleOrderCode)
      = some so →
    (db.sales_invoices.find? fun si2 =>
        si2.unicommerce_order_code == so.unicommerce_order_code) = some si →
    si.unicommerce_shipping_package_code = p.code

/-- After its step, a package is skipped: either it was skipped already,
or the created note now carries its code. -/
theorem process_package_post (env : Env) (dbf : DB) (s : DB)
    (p : ShippingPackage) (s1 : DB)
    (hso : s.sales_orders = dbf.sales_orders)
    (hsi : s.sales_invoices = dbf.sales_invoices)
    (hic : invoice_code_matches dbf p)
    (h : process_package env s p = .ok s1) :
    pkg_skips s1 p := by
  unfold process_package at h
  cases hdn : dnExists s.delivery_notes p.code with
  | true =>
    rw [hdn] at h
    simp only [if_true] at h
    cases h
    exact Or.inl hdn
  | false =>
    rw [hdn] at h
    simp only [Bool.false_eq_true, if_false] at h
    cases hfso : s.sales_orders.find? fun so =>
        so.order_code == p.saleOrderCode with
    | none =>
      rw [hfso] at h
      dsimp only at h
      cases h
      exact Or.inr (Or.inl hfso)
    | some so =>
      rw [hfso] at h
      dsimp only at h
      cases hfsi : s.sales_invoices.find? fun si =>
          si.unicommerce_order_code == so.unicommerce_order_code with
      | none =>
        rw [hfsi] at h
        dsimp only at h
        cases h
        exact Or.inr (Or.inr ⟨so, hfso, hfsi⟩)
      | some si =>
        rw [hfsi] at h
        dsimp only at h
        simp only [create_delivery_note, make_delivery_note] at h
        cases hsub : env.submit_result ⟨so.name, si.unicommerce_order_code,
            si.unicommerce_shipping_package_code, false⟩ with
        | some e =>
          rw [hsub] at h
          exact absurd h (by simp [Except.map])
        | none =>
          rw [hsub] at h
          simp only [Except.map] at h
          cases h
          left
          have hcode : si.unicommerce_shipping_package_code = p.code :=
            hic so si (by rw [← hso]; exact hfso) (by rw [← hsi]; exact hfsi)
          unfold dnExists
          rw [List.any_append]
          simp [hcode]

/-- After the package fold, every processed package is skipped. -/
theorem foldlM_packages_post (env : Env) (dbf : DB) :
    ∀ (L : List ShippingPackage) (s t : DB),
      s.sales_orders = dbf.sales_orders →
      s.sales_invoices = dbf.sales_invoices →
      (∀ p ∈ L, invoice_code_matches dbf p) →
      L.foldlM (process_package env) s = .ok t →
      ∀ p ∈ L, pkg_skips t p := by
  intro L
  induction L with
  | nil =>
    intro s t _ _ _ _ p hp
    exact absurd hp (List.not_mem_nil _)
  | cons p L ih =>
    intro s t hso hsi hic h
    rw [List.foldlM_cons, except_bind_ok] at h
    obtain ⟨s1, h1, h2⟩ := h
    obtain ⟨⟨l1, hl1⟩, hso1, hsi1⟩ := process_package_mono env s p s1 h1
    intro q hq
    rcases List.mem_cons.mp hq with rfl | hq
    · have hskip1 : pkg_skips s1 q :=
        process_package_post env dbf s q s1 hso hsi
          (hic q (List.mem_cons_self _ _)) h1
      obtain ⟨⟨l2, hl2⟩, hso2, hsi2⟩ :=
        foldlM_mono_db _ (process_package_mono env) L s1 t h2
      exact pkg_skips_mono s1 t q l2 hl2 hso2 hsi2 hskip1
    · exact ih s1 t (hso1.trans hso) (hsi1.trans hsi)
        (fun r hr => hic r (List.mem_cons_of_mem _ hr)) h2 q hq

/-- After the facility fold, every package any facility returned that
passes the channel and status filters is skipped in the final state. -/
theorem foldlM_facilities_post (env : Env) (dbf : DB) (ch : List String) :
    ∀ (facs : List String) (s t : DB),
      s.sales_orders = dbf.sales_orders →
      s.sales_invoices = dbf.sales_invoices →
      (∀ f pkgs p, f ∈ facs →
        env.search_shipping_packages f (sync_minutes env.settings) = .ok pkgs →
        p ∈ pkgs → invoice_code_matches dbf p) →
      facs.foldlM (process_facility env ch) s = .ok t →
      ∀ f ∈ facs, ∃ pkgs,
        env.search_shipping_packages f (sync_minutes env.settings) = .ok pkgs
        ∧ ∀ p ∈ (pkgs.filter (channel_ok ch)).filter
            (fun p => p.status == "DISPATCHED"), pkg_skips t p := by
  intro facs
  induction facs with
  | nil =>
    intro s t _ _ _ _ f hf
    exact absurd hf (List.not_mem_nil _)
  | cons f facs ih =>
    intro s t hso hsi hic h
    rw [List.foldlM_cons, except_bind_ok] at h
    obtain ⟨s1, h1, h2⟩ := h
    obtain ⟨⟨l1, hl1⟩, hso1, hsi1⟩ := process_facility_mono env ch s f s1 h1
    intro g hg
    rcases List.mem_cons.mp hg with rfl | hg
    · rw [process_facility_eq, except_bind_ok] at h1
      obtain ⟨pkgs, hapi, hfold⟩ := h1
      refine ⟨pkgs, hapi, ?_⟩
      intro p hp
      have hskip1 : pkg_skips s1 p :=
        foldlM_packages_post env dbf _ s s1 hso hsi
          (fun q hq => hic g pkgs q (List.mem_cons_self _ _) hapi
            (List.mem_of_mem_filter (List.mem_of_mem_filter hq)))
          hfold p hp
      obtain ⟨⟨l2, hl2⟩, hso2, hsi2⟩ :=
        foldlM_mono_db _ (process_facility_mono env ch) facs s1 t h2
      exact pkg_skips_mono s1 t p l2 hl2 hso2 hsi2 hskip1
    · exact ih s1 t (hso1.trans hso) (hsi1.trans hsi)
        (fun f2 pkgs p hf2 => hic f2 pkgs p (List.mem_cons_of_mem _ hf2)) h2 g hg

/-- Folding the package step over packages that are all skipped leaves the
state unchanged. -/
theorem foldlM_packages_noop (env : Env) (s : DB) :
    ∀ L : List ShippingPackage, (∀ p ∈ L, pkg_skips s p) →
      L.foldlM (process_package env) s = .ok s := by
  intro L
  induction L with
  | nil => intro _; rfl
  | cons p L ih =>
    intro hsk
    rw [List.foldlM_cons,
      process_package_skip env s p (hsk p (List.mem_cons_self _ _))]
    simp only [except_ok_bind]
    exact ih fun q hq => hsk q (List.mem_cons_of_mem _ hq)

/-- Folding the facility step over facilities whose filtered packages are
all skipped leaves the state unchanged. -/
theorem foldlM_facilities_noop (env : Env) (ch : List String) (s : DB) :
    ∀ facs : List String,
      (∀ f ∈ facs, ∃ pkgs,
        env.search_shipping_packages f (sync_minutes env.settings) = .ok pkgs
        ∧ ∀ p ∈ (pkgs.filter (channel_ok ch)).filter
            (fun p => p.status == "DISPATCHED"), pkg_skips s p) →
      facs.foldlM (process_facility env ch) s = .ok s := by
  intro facs
  induction facs with
  | nil => intro _; rfl
  | cons f facs ih =>
    intro hsk
    obtain ⟨pkgs, hapi, hskips⟩ := hsk f (List.mem_cons_self _ _)
    rw [List.foldlM_cons, process_facility_eq, hapi]
    simp only [except_ok_bind]
    rw [foldlM_packages_noop env s _ hskips]
    simp only [except_ok_bind]
    exact ih fun g hg => hsk g (List.mem_cons_of_mem _ hg)

/-- C5 (amended): a second run of `prepare_delivery_note` against the same
API responses and the state a successful first run produced changes
nothing — provided the invoice matched to each returned package carries
the package's own code as `unicommerce_shipping_package_code`, which is
the shipment id the first run stored and the duplicate check compares
against. -/
theorem prepare_delivery_note_idempotent (env : Env) (db db1 : DB)
    (h1 : prepare_delivery_note_body env db = .ok db1)
    (h2 : ∀ f pkgs p, f ∈ env.settings.facilities →
        env.search_shipping_packages f (sync_minutes env.settings) = .ok pkgs →
        p ∈ pkgs → invoice_code_matches db p) :
    prepare_delivery_note env db1 = db1 := by
  unfold prepare_delivery_note prepare_delivery_note_body
  unfold prepare_delivery_note_body at h1
  cases hflag : env.settings.delivery_note with
  | false => rfl
  | true =>
    rw [hflag] at h1
    simp only [Bool.not_true, Bool.false_eq_true, if_false] at h1 ⊢
    have hpost := foldlM_facilities_post env db
      ((env.channels.filter (·.enabled)).map (·.channel_id))
      env.settings.facilities db db1 rfl rfl h2 h1
    rw [foldlM_facilities_noop env _ db1 env.settings.facilities hpost]

/-- The invoice the bad state matches to package `"PKG1"` carries shipping
package code `"PKG2"`. -/
def exSIbad : SalesInvoice := ⟨"SI-2", "UO1", "PKG2"⟩

/-- Starting state whose invoice's shipping package code differs from the
package's code. -/
def exDbBad : DB := ⟨[], [exSO], [exSIbad], []⟩

/-- C5 counterexample: with the matched invoice's shipping package code
(`"PKG2"`) differing from the package's code (`"PKG1"`), the duplicate
check never matches the stored shipment id, and a second identical run
creates a second delivery note. -/
theorem prepare_delivery_note_not_idempotent :
    (prepare_delivery_note exEnv
        (prepare_delivery_note exEnv exDbBad)).delivery_notes.length
      ≠ (prepare_delivery_note exEnv exDbBad).delivery_notes.length := by
  decide

/-- C5 witness: the amended theorem applied to the concrete environment
whose invoice code matches the package code. -/
theorem prepare_delivery_note_idempotent_witness :
    prepare_delivery_note exEnv exDb2 = exDb2 := by
  refine prepare_delivery_note_idempotent exEnv exDb exDb2 (by decide) ?_
  intro f pkgs p _ hapi hp
  have hpkgs : ([exPkg] : List ShippingPackage) = pkgs := Except.ok.inj hapi
  rw [← hpkgs] at hp
  have hpe : p = exPkg := by
    rcases List.mem_cons.mp hp with h | h
    · exact h
    · exact absurd h (List.not_mem_nil _)
  subst hpe
  intro so si hso hsi
  have hso2 : (some exSO : Option SalesOrder) = some so := hso
  cases Option.some.inj hso2
  have hsi2 : (some exSI : Option SalesInvoice) = some si := hsi
  cases Option.some.inj hsi2
  rfl

end EI
